import Mathlib

/-!
# Verification of the tool-adapter subsystem of `oas-mcp`

Shallow embedding of `src/functions/type.go` (package `functions`): the
schema synthesizer (`generateSchemaFromFunction`, `getTypeSchema`), the
argument binder / coercion engine (`convertToType` and the binding loop of
`Tool.Execute`), the return-value interpretation of `Tool.Execute`, and the
protocol adapter (`Tool.ServerTool`'s handler).

Modelling conventions:
* Go `reflect.Type` is embedded as `GoType`; struct fields carry their
  declared name, the raw `json` tag string (`""` when the tag is absent,
  exactly what `Tag.Get("json")` returns), the `doc` and `mcpdescription`
  tag strings, and an exported flag (`PkgPath == ""` / `CanSet`).
* Go dynamic values (`any`) are embedded as `Value`.  Machine integers are
  `Int` (conversions apply the two's-complement wrap of `reflect.Value.Convert`
  explicitly); Go floating values are embedded as exact rationals `ℚ`:
  this models `float64` arithmetic-free flows (truncation, decimal
  parse/format) faithfully for values that are exactly representable.
* `map[string]any` inputs are association lists `List (String × Value)`;
  "the first key in Go's (randomized) map iteration order" is modelled as
  the head of the list.
* Fallible Go code returns an explicit outcome type; a run-time panic of
  the Go code (e.g. `reflect.Value.Int` called on a `uint` or float value)
  is the distinguished outcome constructor `crash`, which propagates and
  is never converted to an error.
-/

namespace OasMcp

/-- Signed integer kinds of Go (`int` is 64-bit on the target platforms). -/
inductive IntK where
  | i | i8 | i16 | i32 | i64
deriving DecidableEq, Repr

/-- Unsigned integer kinds of Go (`uint` is 64-bit on the target platforms). -/
inductive UintK where
  | u | u8 | u16 | u32 | u64
deriving DecidableEq, Repr

/-- Floating kinds of Go. -/
inductive FloatK where
  | f32 | f64
deriving DecidableEq, Repr

/-- Bit width of a signed integer kind. -/
def IntK.width : IntK → Nat
  | .i => 64 | .i8 => 8 | .i16 => 16 | .i32 => 32 | .i64 => 64

/-- Bit width of an unsigned integer kind. -/
def UintK.width : UintK → Nat
  | .u => 64 | .u8 => 8 | .u16 => 16 | .u32 => 32 | .u64 => 64

mutual
/-- Embedding of the Go types the adapter inspects through `reflect`.
`any` is the empty interface `interface{}`; `ctx` is `context.Context`
(an interface kind, used by the `hasContext` checks); `other` stands for
the remaining kinds (func, chan, complex, ...) that fall into the default
branches of the source. -/
inductive GoType where
  | bool
  | int (k : IntK)
  | uint (k : UintK)
  | float (k : FloatK)
  | str
  | slice (elem : GoType)
  | mapStr (elem : GoType)            -- map[string]elem
  | mapOther (elem : GoType)          -- a map whose key kind is not String
  | struct (fields : FieldList)
  | ptr (elem : GoType)
  | any
  | ctx
  | other
deriving DecidableEq

/-- A struct field: declared name, raw `json` tag (`""` = no tag), raw
`doc` tag, raw `mcpdescription` tag, exported flag, declared type. -/
inductive Fld where
  | mk (name : String) (tagJson : String) (tagDoc : String)
       (tagMcp : String) (exported : Bool) (ty : GoType)
deriving DecidableEq

/-- Struct fields in declaration order. -/
inductive FieldList where
  | nil
  | cons (f : Fld) (rest : FieldList)
deriving DecidableEq
end

def Fld.name : Fld → String | .mk n _ _ _ _ _ => n
def Fld.tagJson : Fld → String | .mk _ t _ _ _ _ => t
def Fld.tagDoc : Fld → String | .mk _ _ t _ _ _ => t
def Fld.tagMcp : Fld → String | .mk _ _ _ t _ _ => t
def Fld.exported : Fld → Bool | .mk _ _ _ _ e _ => e
def Fld.ty : Fld → GoType | .mk _ _ _ _ _ t => t

/-- `FieldList` as an ordinary list, for stating theorems. -/
def FieldList.toList : FieldList → List Fld
  | .nil => []
  | .cons f rest => f :: rest.toList

/-- List-style induction for `FieldList` (the mutual-inductive recursor
has several motives, which the `induction` tactic cannot use). -/
@[induction_eliminator]
def FieldList.indOn {P : FieldList → Prop} (nil : P .nil)
    (cons : ∀ f rest, P rest → P (.cons f rest)) : ∀ fl, P fl
  | .nil => nil
  | .cons f rest => cons f rest (indOn nil cons rest)

mutual
/-- Embedding of Go dynamic values (`any`).  `structV ty vals` is a struct
value of type `ty` whose field values, in declaration order, are `vals`;
`list t vs` is a slice `[]t`; `map t es` is a `map[string]t` as an
association list in insertion order. -/
inductive Value where
  | null
  | bool (b : Bool)
  | int (k : IntK) (n : Int)
  | uint (k : UintK) (n : Nat)
  | float (k : FloatK) (q : ℚ)
  | str (s : String)
  | list (elemTy : GoType) (elems : ValueList)
  | map (elemTy : GoType) (entries : EntryList)
  | structV (ty : GoType) (vals : ValueList)
deriving DecidableEq

inductive ValueList where
  | nil
  | cons (v : Value) (rest : ValueList)
deriving DecidableEq

inductive EntryList where
  | nil
  | cons (k : String) (v : Value) (rest : EntryList)
deriving DecidableEq
end

def ValueList.toList : ValueList → List Value
  | .nil => []
  | .cons v rest => v :: rest.toList

def EntryList.toList : EntryList → List (String × Value)
  | .nil => []
  | .cons k v rest => (k, v) :: rest.toList

def ValueList.ofList : List Value → ValueList
  | [] => .nil
  | v :: rest => .cons v (ofList rest)

def EntryList.ofList : List (String × Value) → EntryList
  | [] => .nil
  | (k, v) :: rest => .cons k v (ofList rest)

/-- `strings.Split(tag, ",")` on the character level (`String.splitOn`
has the same behaviour but does not evaluate in the kernel). -/
def splitComma : List Char → List (List Char)
  | [] => [[]]
  | c :: rest =>
    if c = ',' then [] :: splitComma rest
    else
      match splitComma rest with
      | g :: gs => (c :: g) :: gs
      | [] => [[c]]

/-- The comma-separated parts of a `json` tag (lines 160 / 337 / 445). -/
def tagParts (tag : String) : List String := (splitComma tag.data).map String.mk

/-- `parts[0]`: the wire name carried by a tag. -/
def tagWire (tag : String) : String := (tagParts tag).headD ""

/-- `slices.Contains(parts[1:], "omitempty")` (lines 347 / 455). -/
def tagOmitempty (tag : String) : Bool := (tagParts tag).tail.contains "omitempty"

/-! ## Decimal text: models of `fmt` rendering and `strconv` parsing

The source renders values with `fmt.Sprintf("%v", value)` and parses with
`strconv.ParseBool`, `strconv.ParseInt(v, 10, 64)` and
`strconv.ParseFloat(v, 64)`.  These are modelled below on `List Char`.
The float model works on exact rationals: formatting prints the exact
decimal expansion (defined for denominators dividing a power of ten, which
covers every IEEE-754 value; other denominators get a fallback that no
reachable value exercises), and parsing reads sign, integer digits, an
optional fraction and an optional exponent exactly (hex floats, inf/nan
and the overflow range check of `ParseFloat` are not modelled, as no claim
exercises them). -/

/-- One decimal digit as a character. -/
def digitChar (d : Nat) : Char :=
  match d with
  | 0 => '0' | 1 => '1' | 2 => '2' | 3 => '3' | 4 => '4'
  | 5 => '5' | 6 => '6' | 7 => '7' | 8 => '8' | _ => '9'

/-- Numeric value of a digit character. -/
def charVal (c : Char) : Nat := c.toNat - 48

/-- Is `c` one of `'0'`..`'9'`? -/
def isDigitC (c : Char) : Bool := decide ('0' ≤ c) && decide (c ≤ '9')

/-- Digit loop for decimal rendering: big-endian digits of `n` prepended
to `acc` (fuel-driven so that closed terms evaluate in the kernel). -/
def fmtNatAux : Nat → Nat → List Char → List Char
  | 0, _, acc => acc
  | fuel + 1, n, acc =>
    if n < 10 then digitChar n :: acc
    else fmtNatAux fuel (n / 10) (digitChar (n % 10) :: acc)

/-- Decimal rendering of a natural number (big-endian digits). -/
def fmtNat (n : Nat) : List Char := fmtNatAux (n + 1) n []

/-- Decimal rendering of an integer, as `fmt.Sprintf("%v")` prints Go
signed integers. -/
def fmtInt (i : Int) : List Char :=
  if i < 0 then '-' :: fmtNat i.natAbs else fmtNat i.natAbs

/-- Value of a big-endian digit string (no validity check). -/
def pdVal (cs : List Char) : Nat := cs.foldl (fun x c => 10 * x + charVal c) 0

/-- Parse a non-empty all-digit string. -/
def parseNatD (cs : List Char) : Option Nat :=
  if cs ≠ [] ∧ cs.all isDigitC then some (pdVal cs) else none

/-- Model of `strconv.ParseInt(s, 10, 64)`: optional sign, then base-10
digits, with the 64-bit range check (out-of-range is an error). -/
def parseIntChars (cs : List Char) : Option Int :=
  match cs with
  | [] => none
  | c :: rest =>
    if c = '-' then
      (parseNatD rest).bind fun v => if v ≤ 2 ^ 63 then some (-(v : Int)) else none
    else if c = '+' then
      (parseNatD rest).bind fun v => if v < 2 ^ 63 then some (v : Int) else none
    else
      (parseNatD cs).bind fun v => if v < 2 ^ 63 then some (v : Int) else none

def goParseInt (s : String) : Option Int := parseIntChars s.data

/-- Model of `strconv.ParseBool`: exactly the accepted literals. -/
def goParseBool (s : String) : Option Bool :=
  if s ∈ ["1", "t", "T", "TRUE", "true", "True"] then some true
  else if s ∈ ["0", "f", "F", "FALSE", "false", "False"] then some false
  else none

/-- Smallest `k ≤ d` with `d ∣ 10 ^ k` (and `0` when there is none): the
number of fraction digits needed to print `num / d` exactly. -/
def decExp (d : Nat) : Nat :=
  ((List.range (d + 1)).find? fun k => decide (d ∣ 10 ^ k)).getD 0

/-- `f` printed as exactly `k` fraction digits (left-padded with zeros). -/
def fracPad (k f : Nat) : List Char :=
  List.replicate (k - (fmtNat f).length) '0' ++ fmtNat f

/-- Scaled mantissa of a rational: `|num| * 10^k / den` with `k = decExp den`
(exact when the denominator divides `10^k`). -/
def floatMantNat (q : ℚ) : Nat := q.num.natAbs * 10 ^ decExp q.den / q.den

/-- Decimal rendering of a rational: exact expansion with `decExp q.den`
fraction digits.  For the rationals arising as Go floats (denominator a
power of two) this is an exact decimal; Go's `%v` prints the shortest
decimal that reparses to the same float, so both renderings reparse to the
same value, which is all the round-trip claims consume. -/
def fmtFloat (q : ℚ) : List Char :=
  (if q.num < 0 then ['-'] else []) ++
    (if decExp q.den = 0 then fmtNat (floatMantNat q)
     else fmtNat (floatMantNat q / 10 ^ decExp q.den) ++
       '.' :: fracPad (decExp q.den) (floatMantNat q % 10 ^ decExp q.den))

/-- After the mantissa: either end of input or an exponent part. -/
def parseExpPart (mant : ℚ) (r : List Char) : Option ℚ :=
  match r with
  | [] => some mant
  | c :: rest =>
    if c = 'e' ∨ c = 'E' then
      match rest with
      | [] => none
      | d :: ds =>
        if d = '-' then (parseNatD ds).map fun e => mant * (10 : ℚ) ^ (-(e : Int))
        else if d = '+' then (parseNatD ds).map fun e => mant * (10 : ℚ) ^ (e : Int)
        else (parseNatD rest).map fun e => mant * (10 : ℚ) ^ (e : Int)
    else none

/-- Unsigned decimal float: integer digits, optional `.` fraction,
optional exponent.  At least one mantissa digit is required. -/
def parseFloatCore (cs : List Char) : Option ℚ :=
  let ip := cs.takeWhile isDigitC
  let r1 := cs.dropWhile isDigitC
  match r1 with
  | [] => if ip = [] then none else some ((pdVal ip : ℚ))
  | c :: rest =>
    if c = '.' then
      let fp := rest.takeWhile isDigitC
      let r2 := rest.dropWhile isDigitC
      if ip = [] ∧ fp = [] then none
      else parseExpPart ((pdVal ip : ℚ) + (pdVal fp : ℚ) / (10 : ℚ) ^ fp.length) r2
    else if ip = [] then none
    else parseExpPart ((pdVal ip : ℚ)) (c :: rest)

/-- Model of `strconv.ParseFloat(s, 64)` on finite decimal input. -/
def parseFloatChars (cs : List Char) : Option ℚ :=
  match cs with
  | [] => none
  | c :: rest =>
    if c = '-' then (parseFloatCore rest).map (fun q => -q)
    else if c = '+' then parseFloatCore rest
    else parseFloatCore cs

def goParseFloat (s : String) : Option ℚ := parseFloatChars s.data

/-! ## Values: zero values, dynamic types, `%v` rendering -/

mutual
/-- `reflect.Zero(t)` (line 224 and the struct binding's fresh value). -/
def zeroValue : GoType → Value
  | .bool => .bool false
  | .int k => .int k 0
  | .uint k => .uint k 0
  | .float k => .float k 0
  | .str => .str ""
  | .slice t => .list t .nil
  | .mapStr t => .map t .nil
  | .mapOther _ => .null
  | .struct fl => .structV (.struct fl) (zeroFields fl)
  | .ptr _ => .null
  | .any => .null
  | .ctx => .null
  | .other => .null

def zeroFields : FieldList → ValueList
  | .nil => .nil
  | .cons (.mk _ _ _ _ _ ty) rest => .cons (zeroValue ty) (zeroFields rest)
end

/-- The dynamic type of a value (`reflect.TypeOf`); `none` for nil. -/
def typeOf : Value → Option GoType
  | .null => none
  | .bool _ => some .bool
  | .int k _ => some (.int k)
  | .uint k _ => some (.uint k)
  | .float k _ => some (.float k)
  | .str _ => some .str
  | .list t _ => some (.slice t)
  | .map t _ => some (.mapStr t)
  | .structV t _ => some t

/-- `valueType.AssignableTo(targetType)` (line 497): identical types, or a
target interface the value implements; only the empty interface (which
every value implements) is modelled. -/
def assignable (v : Value) (t : GoType) : Bool :=
  t == .any || typeOf v == some t

/-- Short type name, for the `%T` / `%v`-of-a-type verbs in the source's
error strings. -/
def tyName : GoType → String
  | .bool => "bool"
  | .int .i => "int" | .int .i8 => "int8" | .int .i16 => "int16"
  | .int .i32 => "int32" | .int .i64 => "int64"
  | .uint .u => "uint" | .uint .u8 => "uint8" | .uint .u16 => "uint16"
  | .uint .u32 => "uint32" | .uint .u64 => "uint64"
  | .float .f32 => "float32" | .float .f64 => "float64"
  | .str => "string"
  | .slice t => "[]" ++ tyName t
  | .mapStr t => "map[string]" ++ tyName t
  | .mapOther t => "map[...]" ++ tyName t
  | .struct _ => "struct"
  | .ptr t => "*" ++ tyName t
  | .any => "interface"
  | .ctx => "context.Context"
  | .other => "other"

def typeName (v : Value) : String :=
  match typeOf v with
  | some t => tyName t
  | none => "<nil>"

mutual
/-- `fmt.Sprintf("%v", value)`.  Primitive renderings are exact; the
composite renderings approximate Go's (Go sorts map keys, prints struct
fields by position); no claim inspects a composite rendering. -/
def sprintfV : Value → String
  | .null => "<nil>"
  | .bool b => if b then "true" else "false"
  | .int _ n => String.mk (fmtInt n)
  | .uint _ n => String.mk (fmtNat n)
  | .float _ q => String.mk (fmtFloat q)
  | .str s => s
  | .list _ vs => "[" ++ sprintfVL vs ++ "]"
  | .map _ es => "map[" ++ sprintfEL es ++ "]"
  | .structV _ vs => "\x7b" ++ sprintfVL vs ++ "\x7d"

def sprintfVL : ValueList → String
  | .nil => ""
  | .cons v .nil => sprintfV v
  | .cons v (.cons w rest) => sprintfV v ++ " " ++ sprintfVL (.cons w rest)

def sprintfEL : EntryList → String
  | .nil => ""
  | .cons k v .nil => k ++ ":" ++ sprintfV v
  | .cons k v (.cons k2 w rest) => k ++ ":" ++ sprintfV v ++ " " ++ sprintfEL (.cons k2 w rest)
end

/-! ## The coercion engine: `convertToType` (lines 487–607) -/

/-- `reflect.Value.Convert` from `int64` to a signed width: two's
complement truncation. -/
def signedWrap (w : Nat) (n : Int) : Int :=
  (n + 2 ^ (w - 1)) % 2 ^ w - 2 ^ (w - 1)

/-- Go's float-to-integer conversion `int64(f)`: truncation toward zero
(the out-of-range case is implementation-defined in Go and not exercised
by any claim). -/
def ratTrunc (q : ℚ) : Int := q.num.tdiv q.den

/-- Outcome of one coercion: converted value, returned error, or run-time
panic. -/
inductive CRes where
  | ok (v : Value)
  | err (msg : String)
  | crash (msg : String)
deriving DecidableEq

inductive CResL where
  | okL (vs : ValueList)
  | errL (msg : String)
  | crashL (msg : String)
deriving DecidableEq

inductive CResE where
  | okE (es : EntryList)
  | errE (msg : String)
  | crashE (msg : String)
deriving DecidableEq

mutual
/-- `convertToType(value, targetType)`, lines 487–607.  Notes kept from
the source: the `uint` kinds appear in the *input* case arms of the bool,
int and float targets, but those arms then call `reflect.Value.Int()`,
which panics on a `uint` kind (`crash` here); the same arms list the float
kinds for a bool target, and `reflect.Value.Int()` also panics on a float
kind.  No `case` of the switch handles an *unsigned target* kind, so a
non-assignable value aimed at a `uint` target falls through to the final
generic conversion error. -/
def convertToType (value : Value) (targetType : GoType) : CRes :=
  match value with
  | .null => .ok (zeroValue targetType)                      -- line 489
  | v =>
    if assignable v targetType then .ok v                    -- line 497
    else
      match targetType with
      | .str => .ok (.str (sprintfV v))                      -- line 505
      | .bool =>                                             -- lines 507–522
        match v with
        | .bool b => .ok (.bool b)
        | .int _ n => .ok (.bool (decide (n ≠ 0)))
        | .uint _ _ => .crash "reflect: call of reflect.Value.Int on uint Value"
        | .float _ _ => .crash "reflect: call of reflect.Value.Int on float Value"
        | .str s =>
          match goParseBool s with
          | some b => .ok (.bool b)
          | none => .err ("cannot convert " ++ sprintfV v ++ " to bool")
        | _ => .err ("cannot convert " ++ sprintfV v ++ " to bool")
      | .int k =>                                            -- lines 524–541
        match v with
        | .int _ n => .ok (.int k (signedWrap k.width n))
        | .uint _ _ => .crash "reflect: call of reflect.Value.Int on uint Value"
        | .float _ q => .ok (.int k (signedWrap k.width (ratTrunc q)))
        | .str s =>
          match goParseInt s with
          | some n => .ok (.int k (signedWrap k.width n))
          | none => .err ("cannot convert " ++ sprintfV v ++ " to int")
        | _ => .err ("cannot convert " ++ sprintfV v ++ " to int")
      | .float k =>                                          -- lines 543–560
        match v with
        | .int _ n => .ok (.float k (n : ℚ))
        | .uint _ _ => .crash "reflect: call of reflect.Value.Int on uint Value"
        | .float _ q => .ok (.float k q)
        | .str s =>
          match goParseFloat s with
          | some q => .ok (.float k q)
          | none => .err ("cannot convert " ++ sprintfV v ++ " to float")
        | _ => .err ("cannot convert " ++ sprintfV v ++ " to float")
      | .slice elemT =>                                      -- lines 562–580
        match v with
        | .list .any elems =>
          match convertList elems elemT 0 with
          | .okL vs => .ok (.list elemT vs)
          | .errL m => .err m
          | .crashL m => .crash m
        | _ => .err ("cannot convert " ++ sprintfV v ++ " to slice")
      | .mapStr elemT =>                                     -- lines 582–602
        match v with
        | .map .any entries =>
          match convertEntries entries elemT with
          | .okE es => .ok (.map elemT es)
          | .errE m => .err m
          | .crashE m => .crash m
        | _ => .err ("cannot convert " ++ sprintfV v ++ " to map")
      | t =>                                                 -- line 606
        .err ("cannot convert " ++ sprintfV v ++ " (type " ++ typeName v ++ ") to "
          ++ tyName t)

/-- Element loop of the slice case (index-qualified first error). -/
def convertList (vs : ValueList) (elemT : GoType) (idx : Nat) : CResL :=
  match vs with
  | .nil => .okL .nil
  | .cons v rest =>
    match convertToType v elemT with
    | .ok w =>
      match convertList rest elemT (idx + 1) with
      | .okL ws => .okL (.cons w ws)
      | e => e
    | .err m => .errL ("cannot convert slice element " ++ String.mk (fmtNat idx) ++ ": " ++ m)
    | .crash m => .crashL m

/-- Value loop of the map case (key-qualified first error; Go iterates the
map in randomized order, modelled as insertion order). -/
def convertEntries (es : EntryList) (elemT : GoType) : CResE :=
  match es with
  | .nil => .okE .nil
  | .cons key v rest =>
    match convertToType v elemT with
    | .ok w =>
      match convertEntries rest elemT with
      | .okE ws => .okE (.cons key w ws)
      | e => e
    | .err m => .errE ("cannot convert map element " ++ key ++ ": " ++ m)
    | .crash m => .crashE m
end

/-! ## The argument binder and `Tool.Execute` (lines 117–243) -/

/-- The untyped input map `map[string]any`, in iteration order. -/
abbrev Params := List (String × Value)

/-- Go map lookup `params[key]`. -/
def lookupP (params : Params) (key : String) : Option Value :=
  match params with
  | [] => none
  | (k, v) :: rest => if k = key then some v else lookupP rest key

/-- The wire name the struct-binding loop looks up (lines 155–162): the
declared field name when there is no `json` tag, otherwise the part before
the first comma.  (Unlike the schema synthesizer, the binder does not
treat `"-"` specially.) -/
def wireName (f : Fld) : String :=
  if f.tagJson = "" then f.name else tagWire f.tagJson

/-- One field of the struct binding (lines 151–178): absent or unsettable
(unexported) fields keep the zero value; present settable fields are
coerced, a coercion error being field-qualified (line 172). -/
def bindField (f : Fld) (params : Params) : CRes :=
  match lookupP params (wireName f) with
  | some pv =>
    if f.exported then
      match convertToType pv f.ty with
      | .ok w => .ok w
      | .err m => .err ("failed to convert parameter " ++ wireName f ++ ": " ++ m)
      | .crash m => .crash m
    else .ok (zeroValue f.ty)
  | none => .ok (zeroValue f.ty)

/-- The struct-parameter binding loop (lines 147–181), producing the bound
field values in declaration order. -/
def bindStruct (fl : FieldList) (params : Params) : CResL :=
  match fl with
  | .nil => .okL .nil
  | .cons f rest =>
    match bindField f params with
    | .ok v =>
      match bindStruct rest params with
      | .okL vs => .okL (.cons v vs)
      | e => e
    | .err m => .errL m
    | .crash m => .crashL m

/-- `reflect.Kind() == reflect.Interface` for the modelled types. -/
def isIfaceKind : GoType → Bool
  | .any => true
  | .ctx => true
  | _ => false

/-- The raw-map test of lines 139–141 / 315–317: a map with string keys
and interface element kind. -/
def isRawMapTy : GoType → Bool
  | .mapStr e => isIfaceKind e
  | _ => false

/-- The primitive-parameter path of the binding loop (lines 184–224):
bind the value of the first key of the input map (Go map iteration order,
modelled as the list head), or the zero value when the map is empty or
that first key is the empty string (the `paramName != ""` guard of
line 210). -/
def bindPrim (t : GoType) (params : Params) : CRes :=
  match params with
  | [] => .ok (zeroValue t)
  | (k, v) :: _ =>
    if k = "" then .ok (zeroValue t)
    else
      match convertToType v t with
      | .ok w => .ok w
      | .err m => .err ("failed to convert parameter " ++ k ++ ": " ++ m)
      | .crash m => .crash m

/-- Binding of one parameter of the `Execute` loop (lines 135–225):
the first parameter of raw-map type receives the whole input map; a struct
parameter is bound per field; any other parameter goes through the
first-key primitive path `bindPrim`. -/
def bindOneArg (isFirst : Bool) (t : GoType) (params : Params) : CRes :=
  if isFirst ∧ isRawMapTy t then .ok (.map .any (EntryList.ofList params))
  else
    match t with
    | .struct fl =>
      match bindStruct fl params with
      | .okL vs => .ok (.structV (.struct fl) vs)
      | .errL m => .err m
      | .crashL m => .crash m
    | _ => bindPrim t params

inductive BindOut where
  | ok (args : List Value)
  | failed (msg : String)
  | crash (msg : String)
deriving DecidableEq

/-- The whole binding loop of `Execute`, in parameter order, stopping at
the first error (the function has then not been called). -/
def bindArgs (isFirst : Bool) (ts : List GoType) (params : Params) : BindOut :=
  match ts with
  | [] => .ok []
  | t :: rest =>
    match bindOneArg isFirst t params with
    | .ok v =>
      match bindArgs false rest params with
      | .ok vs => .ok (v :: vs)
      | e => e
    | .err m => .failed m
    | .crash m => .crash m

/-- The wrapped function's reflective results, for the arities `Execute`
interprets: zero results, one result, or a value plus a final error slot
(`none` = nil error). -/
inductive FnRet where
  | r0
  | r1 (v : Value)
  | r2 (v : Value) (e : Option String)

/-- Outcome of `Execute`: the `(any, error)` pair it returns, or a
run-time panic escaping it. -/
inductive ExecOut where
  | ret (v : Value) (e : Option String)
  | crashed (msg : String)
deriving DecidableEq

/-- A wrapped Go function: its non-context parameter types (the engine
threads a leading `context.Context` through untouched, so it is omitted
from the model) and its behaviour on bound arguments. -/
structure GoFn where
  params : List GoType
  body : List Value → FnRet

/-- Lines 230–243: interpret the results of the reflective `Call`. -/
def interpretRet : FnRet → ExecOut
  | .r0 => .ret .null none
  | .r1 v => .ret v none
  | .r2 v none => .ret v none
  | .r2 v (some e) => .ret v (some e)

/-- `Tool.Execute` (lines 117–243): bind every parameter, then call the
function and interpret its results; a binding error is returned as
`(nil, err)` without calling the function. -/
def Execute (fn : GoFn) (params : Params) : ExecOut :=
  match bindArgs true fn.params params with
  | .failed m => .ret .null (some m)
  | .crash m => .crashed m
  | .ok args => interpretRet (fn.body args)

/-! ## The protocol adapter: `Tool.ServerTool`'s handler (lines 254–287) -/

mutual
/-- `json.Marshal` of a result value.  Total on `Value`: marshalling only
fails in Go for channels, functions and cyclic values, which `Value` has
no inhabitant for; string escaping and struct field names are not spelled
out because no claim inspects the marshalled text. -/
def goJsonMarshal : Value → String
  | .null => "null"
  | .bool b => if b then "true" else "false"
  | .int _ n => String.mk (fmtInt n)
  | .uint _ n => String.mk (fmtNat n)
  | .float _ q => String.mk (fmtFloat q)
  | .str s => "\"" ++ s ++ "\""
  | .list _ vs => "[" ++ jsonVL vs ++ "]"
  | .map _ es => "\x7b" ++ jsonEL es ++ "\x7d"
  | .structV _ vs => "\x7b" ++ jsonVL vs ++ "\x7d"

def jsonVL : ValueList → String
  | .nil => ""
  | .cons v .nil => goJsonMarshal v
  | .cons v (.cons w rest) => goJsonMarshal v ++ "," ++ jsonVL (.cons w rest)

def jsonEL : EntryList → String
  | .nil => ""
  | .cons k v .nil => "\"" ++ k ++ "\":" ++ goJsonMarshal v
  | .cons k v (.cons k2 w rest) =>
    "\"" ++ k ++ "\":" ++ goJsonMarshal v ++ "," ++ jsonEL (.cons k2 w rest)
end

/-- The handler's reply: `mcp.NewToolResultText` on success,
`mcp.NewToolResultError` on any returned error (the handler's own Go
error result is nil in both cases), or a panic escaping the handler. -/
inductive HOut where
  | text (s : String)
  | errorPayload (s : String)
  | crashed (msg : String)
deriving DecidableEq

/-- The closure installed by `Tool.ServerTool` (lines 265–285).  The
argument decode step (`json.Marshal` of the request arguments followed by
`json.Unmarshal` into `map[string]any`) cannot fail in the model: the
request arguments are already a string-keyed map of `Value`s, so both
decode error branches of the source are vacuously covered, as is the
result `json.Marshal` error branch. -/
def serverToolHandler (fn : GoFn) (args : Option Params) : HOut :=
  match Execute fn (match args with | none => [] | some m => m) with
  | .crashed m => .crashed m
  | .ret _ (some e) => .errorPayload e
  | .ret v none => .text (goJsonMarshal v)

/-! ## Schema synthesis (lines 289–485) -/

/-- JSON-schema fragments (`map[string]any` values in the source). -/
inductive J where
  | s (v : String)
  | b (v : Bool)
  | strs (v : List String)
  | obj (entries : List (String × J))

/-- The `Schema` struct of the source (`SType` models its `Type` field,
which clashes with a Lean keyword). -/
structure Schema where
  SType : String
  Properties : List (String × J)
  Required : List String

/-- Attach a `description` entry from a doc tag, when non-empty
(lines 362–365 / 470–473). -/
def addDesc (j : J) (d : String) : J :=
  if d = "" then j
  else
    match j with
    | .obj es => .obj (es ++ [("description", .s d)])
    | x => x

mutual
/-- `getTypeSchema` (lines 381–485).  The pointer branch returns the
element schema unchanged: its `enum` adjustment is unreachable because no
schema this function produces contains an `enum` key. -/
def getTypeSchema : GoType → J
  | .ptr elem => getTypeSchema elem
  | .bool => .obj [("type", .s "boolean")]
  | .int _ => .obj [("type", .s "integer")]
  | .uint _ => .obj [("type", .s "integer")]
  | .float _ => .obj [("type", .s "number")]
  | .str => .obj [("type", .s "string")]
  | .slice elem => .obj [("type", .s "array"), ("items", getTypeSchema elem)]
  | .mapStr elem => .obj [("type", .s "object"), ("additionalProperties", getTypeSchema elem)]
  | .mapOther _ => .obj [("type", .s "object"), ("additionalProperties", .b true)]
  | .struct fl =>
    .obj [("type", .s "object"),
      ("properties", .obj (nestedFields fl).1),
      ("required", .strs (nestedFields fl).2)]
  | .any => .obj [("type", .s "string")]
  | .ctx => .obj [("type", .s "string")]
  | .other => .obj [("type", .s "string")]

/-- The field loop of `getTypeSchema`'s struct case (lines 432–477):
unexported fields are skipped, a tag wire name `-` removes the field, the
field is required iff it is untagged or its tag lacks `omitempty`; the
description comes from the `doc` tag. -/
def nestedFields : FieldList → List (String × J) × List String
  | .nil => ([], [])
  | .cons (.mk name tagJson tagDoc _ exported ty) rest =>
    if exported = false then nestedFields rest
    else if tagJson = "" then
      ((name, addDesc (getTypeSchema ty) tagDoc) :: (nestedFields rest).1,
        name :: (nestedFields rest).2)
    else if tagWire tagJson = "-" then nestedFields rest
    else if tagOmitempty tagJson then
      ((tagWire tagJson, addDesc (getTypeSchema ty) tagDoc) :: (nestedFields rest).1,
        (nestedFields rest).2)
    else
      ((tagWire tagJson, addDesc (getTypeSchema ty) tagDoc) :: (nestedFields rest).1,
        tagWire tagJson :: (nestedFields rest).2)
end

/-- The root field loop of `generateSchemaFromFunction` (lines 323–369):
identical to `nestedFields` except that the description comes from the
`mcpdescription` tag. -/
def rootFields : FieldList → List (String × J) × List String
  | .nil => ([], [])
  | .cons (.mk name tagJson _ tagMcp exported ty) rest =>
    if exported = false then rootFields rest
    else if tagJson = "" then
      ((name, addDesc (getTypeSchema ty) tagMcp) :: (rootFields rest).1,
        name :: (rootFields rest).2)
    else if tagWire tagJson = "-" then rootFields rest
    else if tagOmitempty tagJson then
      ((tagWire tagJson, addDesc (getTypeSchema ty) tagMcp) :: (rootFields rest).1,
        (rootFields rest).2)
    else
      ((tagWire tagJson, addDesc (getTypeSchema ty) tagMcp) :: (rootFields rest).1,
        tagWire tagJson :: (rootFields rest).2)

/-- Line 298 / 301–304: skip a leading `context.Context` parameter. -/
def dropCtx : List GoType → List GoType
  | .ctx :: r => r
  | r => r

/-- `generateSchemaFromFunction` (lines 289–379), taking the function's
full parameter type list. -/
def generateSchemaFromFunction (sig : List GoType) : Schema :=
  match dropCtx sig with
  | [] => ⟨"object", [], []⟩
  | t :: _ =>
    if isRawMapTy t then ⟨"object", [], []⟩
    else
      match t with
      | .struct fl => ⟨"object", (rootFields fl).1, (rootFields fl).2⟩
      | _ => ⟨"object", [("value", getTypeSchema t)], ["value"]⟩

/-- Does the schema field loop keep this field at all?  (Exported, and not
removed by a `-` wire name.) -/
def schemaKeeps (f : Fld) : Bool :=
  f.exported && (f.tagJson == "" || !(tagWire f.tagJson == "-"))

/-- Does the schema field loop add this field's wire name to `required`?
(Kept, and untagged or tagged without `omitempty`.) -/
def schemaRequires (f : Fld) : Bool :=
  schemaKeeps f && (f.tagJson == "" || !(tagOmitempty f.tagJson))

/-- Render a primitive value to text and coerce the text back to the given
type, both through `convertToType` (the round-trip of spec §8). -/
def renderThenParse (v : Value) (t : GoType) : CRes :=
  match convertToType v .str with
  | .ok rendered => convertToType rendered t
  | e => e

/-! ### Round-trip lemmas for the decimal layer -/

theorem charVal_digitChar {d : Nat} (h : d < 10) : charVal (digitChar d) = d := by
  rcases d with _ | _ | _ | _ | _ | _ | _ | _ | _ | _ | d <;> first | rfl | omega

theorem isDigitC_digitChar (d : Nat) : isDigitC (digitChar d) = true := by
  rcases d with _ | _ | _ | _ | _ | _ | _ | _ | _ | _ | d <;> rfl

theorem fmtNatAux_acc (fuel : Nat) :
    ∀ (n : Nat) (acc : List Char), fmtNatAux fuel n acc = fmtNatAux fuel n [] ++ acc := by
  induction fuel with
  | zero => intro n acc; rfl
  | succ fuel ih =>
    intro n acc
    simp only [fmtNatAux]
    split
    · rfl
    · rw [ih (n / 10) (digitChar (n % 10) :: acc), ih (n / 10) [digitChar (n % 10)]]
      simp

theorem fmtNatAux_fuel (n : Nat) :
    ∀ (f₁ f₂ : Nat), n < f₁ → n < f₂ → fmtNatAux f₁ n [] = fmtNatAux f₂ n [] := by
  induction n using Nat.strongRecOn with
  | _ n ih =>
    intro f₁ f₂ h₁ h₂
    match f₁, f₂ with
    | 0, _ => omega
    | _ + 1, 0 => omega
    | g₁ + 1, g₂ + 1 =>
      simp only [fmtNatAux]
      split
      · rfl
      · next hge =>
        rw [fmtNatAux_acc g₁, fmtNatAux_acc g₂,
          ih (n / 10) (by omega) g₁ g₂ (by omega) (by omega)]

theorem fmtNat_small {n : Nat} (h : n < 10) : fmtNat n = [digitChar n] := by
  simp [fmtNat, fmtNatAux, h]

theorem fmtNat_step {n : Nat} (h : 10 ≤ n) :
    fmtNat n = fmtNat (n / 10) ++ [digitChar (n % 10)] := by
  show fmtNatAux (n + 1) n [] = _
  have h1 : fmtNatAux (n + 1) n [] = fmtNatAux n (n / 10) [digitChar (n % 10)] := by
    simp only [fmtNatAux]
    rw [if_neg (by omega)]
  rw [h1, fmtNatAux_acc, fmtNatAux_fuel (n / 10) n (n / 10 + 1) (by omega) (by omega)]
  rfl

theorem fmtNat_ne_nil (n : Nat) : fmtNat n ≠ [] := by
  rcases lt_or_le n 10 with h | h
  · rw [fmtNat_small h]; simp
  · rw [fmtNat_step h]; simp

theorem fmtNat_all_digits (n : Nat) : (fmtNat n).all isDigitC = true := by
  induction n using Nat.strongRecOn with
  | _ n ih =>
    rcases lt_or_le n 10 with h | h
    · rw [fmtNat_small h]; simp [isDigitC_digitChar]
    · rw [fmtNat_step h]
      simp only [List.all_append, Bool.and_eq_true]
      exact ⟨ih (n / 10) (by omega), by simp [isDigitC_digitChar]⟩

theorem foldl_fmtNat_gen (n : Nat) :
    ∀ a, (fmtNat n).foldl (fun x c => 10 * x + charVal c) a
      = a * 10 ^ (fmtNat n).length + n := by
  induction n using Nat.strongRecOn with
  | _ n ih =>
    intro a
    rcases lt_or_le n 10 with h | h
    · rw [fmtNat_small h]
      simp only [List.foldl_cons, List.foldl_nil, List.length_cons, List.length_nil,
        charVal_digitChar h, pow_one]
      omega
    · rw [fmtNat_step h]
      rw [List.foldl_append, List.length_append]
      simp only [List.foldl_cons, List.foldl_nil, List.length_cons, List.length_nil]
      rw [ih (n / 10) (by omega) a, charVal_digitChar (Nat.mod_lt _ (by omega))]
      have hP : a * 10 ^ ((fmtNat (n / 10)).length + (0 + 1))
          = a * 10 ^ (fmtNat (n / 10)).length * 10 := by ring
      rw [hP]
      omega

theorem foldl_fmtNat (n : Nat) :
    (fmtNat n).foldl (fun x c => 10 * x + charVal c) 0 = n := by
  simpa using foldl_fmtNat_gen n 0

theorem parseNatD_fmtNat (n : Nat) : parseNatD (fmtNat n) = some n := by
  unfold parseNatD
  rw [if_pos ⟨fmtNat_ne_nil n, fmtNat_all_digits n⟩]
  exact congrArg some (foldl_fmtNat n)

theorem fmtNat_length_le {n k : Nat} (hk : 0 < k) (h : n < 10 ^ k) :
    (fmtNat n).length ≤ k := by
  induction n using Nat.strongRecOn generalizing k with
  | _ n ih =>
    rcases lt_or_le n 10 with hn | hn
    · rw [fmtNat_small hn]; simpa using hk
    · rw [fmtNat_step hn]
      simp only [List.length_append, List.length_cons, List.length_nil]
      rcases Nat.lt_or_ge k 2 with hk2 | hk2
      · have hk1 : k = 1 := by omega
        subst hk1
        simp at h
        omega
      · have hdiv : n / 10 < 10 ^ (k - 1) := by
          rw [Nat.div_lt_iff_lt_mul (by norm_num)]
          calc n < 10 ^ k := h
            _ = 10 ^ (k - 1) * 10 := by
              rw [← pow_succ]
              congr 1
              omega
        have := ih (n / 10) (by omega) (by omega) hdiv
        omega

theorem foldl_replicate_zero (j : Nat) (cs : List Char) :
    (List.replicate j '0' ++ cs).foldl (fun x c => 10 * x + charVal c) 0
      = cs.foldl (fun x c => 10 * x + charVal c) 0 := by
  induction j with
  | zero => rfl
  | succ j ih => simpa [List.replicate_succ, charVal] using ih

theorem fracPad_all_digits (k f : Nat) : (fracPad k f).all isDigitC = true := by
  simp only [fracPad, List.all_append, Bool.and_eq_true]
  refine ⟨?_, fmtNat_all_digits f⟩
  simp only [List.all_eq_true]
  intro c hc
  rw [List.eq_of_mem_replicate hc]
  rfl

theorem fracPad_length {k f : Nat} (hk : 0 < k) (h : f < 10 ^ k) :
    (fracPad k f).length = k := by
  have := fmtNat_length_le hk h
  simp only [fracPad, List.length_append, List.length_replicate]
  omega

theorem foldl_fracPad (k f : Nat) :
    (fracPad k f).foldl (fun x c => 10 * x + charVal c) 0 = f := by
  unfold fracPad
  rw [foldl_replicate_zero, foldl_fmtNat]

theorem fracPad_ne_nil (k f : Nat) : fracPad k f ≠ [] := by
  simp [fracPad, fmtNat_ne_nil]

theorem takeWhile_all_of {p : Char → Bool} :
    ∀ (A : List Char), (∀ c ∈ A, p c = true) →
      A.takeWhile p = A ∧ A.dropWhile p = []
  | [], _ => by simp
  | a :: A, h => by
    have ha := h a (by simp)
    have ih := takeWhile_all_of A (fun c hc => h c (by simp [hc]))
    simp [List.takeWhile_cons, List.dropWhile_cons, ha, ih.1, ih.2]

theorem takeWhile_append_not {p : Char → Bool} :
    ∀ (A : List Char), (∀ c ∈ A, p c = true) → ∀ (b : Char), p b = false →
      ∀ (B : List Char),
      (A ++ b :: B).takeWhile p = A ∧ (A ++ b :: B).dropWhile p = b :: B
  | [], _, b, hb, B => by simp [List.takeWhile_cons, List.dropWhile_cons, hb]
  | a :: A, h, b, hb, B => by
    have ha := h a (by simp)
    have ih := takeWhile_append_not A (fun c hc => h c (by simp [hc])) b hb B
    simp [List.takeWhile_cons, List.dropWhile_cons, ha, ih.1, ih.2]

theorem isDigitC_ne {c : Char} (h : isDigitC c = true) :
    c ≠ '-' ∧ c ≠ '+' ∧ c ≠ '.' := by
  refine ⟨?_, ?_, ?_⟩ <;> rintro rfl <;> simp [isDigitC] at h

theorem all_eq_forall {cs : List Char} (h : cs.all isDigitC = true) :
    ∀ c ∈ cs, isDigitC c = true := by
  simpa only [List.all_eq_true] using h

/-- Parsing the plain rendering of a natural number. -/
theorem parseFloatCore_fmtNat (m : Nat) : parseFloatCore (fmtNat m) = some (m : ℚ) := by
  obtain ⟨ht, hd⟩ := takeWhile_all_of (fmtNat m) (all_eq_forall (fmtNat_all_digits m))
  unfold parseFloatCore
  simp only [ht, hd, pdVal, if_neg (fmtNat_ne_nil m), foldl_fmtNat]

/-- Parsing the rendering `A . fracPad k f`. -/
theorem parseFloatCore_frac (A k f : Nat) (hk : 0 < k) (hf : f < 10 ^ k) :
    parseFloatCore (fmtNat A ++ '.' :: fracPad k f)
      = some ((A : ℚ) + (f : ℚ) / (10 : ℚ) ^ k) := by
  obtain ⟨ht, hd⟩ := takeWhile_append_not (fmtNat A)
    (all_eq_forall (fmtNat_all_digits A)) '.' (by rfl) (fracPad k f)
  obtain ⟨ht2, hd2⟩ := takeWhile_all_of (fracPad k f) (all_eq_forall (fracPad_all_digits k f))
  have hno : ¬(fmtNat A = [] ∧ fracPad k f = []) := fun hc => fmtNat_ne_nil A hc.1
  unfold parseFloatCore
  simp only [ht, hd, ht2, hd2, if_pos rfl, if_true, if_neg hno, parseExpPart, pdVal,
    fracPad_length hk hf, foldl_fmtNat, foldl_fracPad]

/-- `decExp` finds a denominator-clearing exponent whenever one of size at
most the denominator exists. -/
theorem decExp_dvd {d : Nat} (h : ∃ j ≤ d, d ∣ 10 ^ j) : d ∣ 10 ^ decExp d := by
  obtain ⟨j, hj, hdvd⟩ := h
  unfold decExp
  cases hcase : (List.range (d + 1)).find? (fun k => decide (d ∣ 10 ^ k)) with
  | none =>
    exfalso
    have := List.find?_eq_none.mp hcase j (List.mem_range.mpr (by omega))
    simp only [decide_eq_true_eq] at this
    exact this hdvd
  | some k =>
    have hk := List.find?_some hcase
    simp only [decide_eq_true_eq] at hk
    simpa [hcase] using hk

theorem exists_digit_head (A : Nat) (rest : List Char) :
    ∃ c cs', fmtNat A ++ rest = c :: cs' ∧ isDigitC c = true := by
  cases h : fmtNat A with
  | nil => exact absurd h (fmtNat_ne_nil A)
  | cons c cs'' =>
    refine ⟨c, cs'' ++ rest, by simp [h], ?_⟩
    exact all_eq_forall (fmtNat_all_digits A) c (by rw [h]; simp)

theorem parseFloatChars_digit_head {cs : List Char}
    (h : ∃ c cs', cs = c :: cs' ∧ isDigitC c = true) :
    parseFloatChars cs = parseFloatCore cs := by
  obtain ⟨c, cs', rfl, hc⟩ := h
  obtain ⟨h1, h2, _⟩ := isDigitC_ne hc
  simp [parseFloatChars, h1, h2]

/-- Round-trip for the rational/float model: parsing the exact decimal
rendering of a finite-decimal rational recovers it. -/
theorem parseFloat_fmtFloat (q : ℚ) (h : ∃ j ≤ q.den, (q.den : ℕ) ∣ 10 ^ j) :
    parseFloatChars (fmtFloat q) = some q := by
  have hdvd : q.den ∣ 10 ^ decExp q.den := decExp_dvd h
  have hden : 0 < q.den := q.pos
  have h10 : ((10 : ℚ) ^ decExp q.den) ≠ 0 := by positivity
  have hdq : ((q.den : ℚ)) ≠ 0 := by exact_mod_cast hden.ne'
  set k := decExp q.den with hkdef
  set m := floatMantNat q with hmdef
  have hm_expand : m = q.num.natAbs * 10 ^ k / q.den := rfl
  have hm_mul : m * q.den = q.num.natAbs * 10 ^ k := by
    rw [hm_expand]
    exact Nat.div_mul_cancel (Dvd.dvd.mul_left hdvd q.num.natAbs)
  -- the mantissa value is |num| / den
  have hmq : (m : ℚ) / (10 : ℚ) ^ k = (q.num.natAbs : ℚ) / (q.den : ℚ) := by
    rw [div_eq_div_iff h10 hdq]
    exact_mod_cast hm_mul
  -- the mantissa the parser reads, in both the k = 0 and k > 0 layouts
  have hbody : parseFloatCore
      (if k = 0 then fmtNat m else fmtNat (m / 10 ^ k) ++ '.' :: fracPad k (m % 10 ^ k))
      = some ((q.num.natAbs : ℚ) / (q.den : ℚ)) := by
    split
    · next hk0 =>
      rw [parseFloatCore_fmtNat, ← hmq, hk0]
      norm_num
    · next hk0 =>
      have hkpos : 0 < k := Nat.pos_of_ne_zero hk0
      have hflt : m % 10 ^ k < 10 ^ k := Nat.mod_lt _ (by positivity)
      rw [parseFloatCore_frac _ _ _ hkpos hflt, ← hmq]
      congr 1
      have hdm : ((m : ℚ)) = ((m / 10 ^ k : ℕ) : ℚ) * (10 : ℚ) ^ k + ((m % 10 ^ k : ℕ) : ℚ) := by
        exact_mod_cast (Nat.div_add_mod m (10 ^ k)).symm.trans (by ring_nf)
      rw [hdm]
      field_simp
  -- assemble with the sign
  have hshape0 : fmtFloat q = (if q.num < 0 then ['-'] else []) ++
      (if k = 0 then fmtNat m
       else fmtNat (m / 10 ^ k) ++ '.' :: fracPad k (m % 10 ^ k)) := rfl
  rw [hshape0]
  rcases lt_or_le q.num 0 with hneg | hpos
  · have hsign : (if q.num < 0 then ['-'] else []) = ['-'] := if_pos hneg
    have habs : (q.num.natAbs : ℚ) / (q.den : ℚ) = -q := by
      have h1 : ((q.num.natAbs : ℚ)) = -((q.num : ℚ)) := by
        have h2 := Int.cast_natAbs (R := ℚ) (n := q.num)
        rw [h2, abs_of_neg hneg]
        push_cast
        ring
      rw [h1, neg_div, Rat.num_div_den]
    rw [hsign, List.singleton_append]
    have hstep : parseFloatChars ('-' :: (if k = 0 then fmtNat m
        else fmtNat (m / 10 ^ k) ++ '.' :: fracPad k (m % 10 ^ k)))
        = (parseFloatCore (if k = 0 then fmtNat m
            else fmtNat (m / 10 ^ k) ++ '.' :: fracPad k (m % 10 ^ k))).map (fun x => -x) := by
      simp [parseFloatChars]
    rw [hstep, hbody]
    simp [habs]
  · have hsign : (if q.num < 0 then ['-'] else []) = [] := if_neg (by omega)
    have habs : (q.num.natAbs : ℚ) / (q.den : ℚ) = q := by
      have h1 : ((q.num.natAbs : ℚ)) = ((q.num : ℚ)) := by
        have h2 := Int.cast_natAbs (R := ℚ) (n := q.num)
        rw [h2, abs_of_nonneg hpos]
      rw [h1, Rat.num_div_den]
    rw [hsign, List.nil_append]
    have hdig : ∃ c cs', (if k = 0 then fmtNat m
        else fmtNat (m / 10 ^ k) ++ '.' :: fracPad k (m % 10 ^ k)) = c :: cs'
        ∧ isDigitC c = true := by
      split
      · simpa using exists_digit_head m []
      · exact exists_digit_head (m / 10 ^ k) _
    rw [parseFloatChars_digit_head hdig, hbody, habs]

/-! ### Helper lemmas on the value model -/

@[simp]
theorem fieldListToList_nil : FieldList.nil.toList = [] := rfl

@[simp]
theorem fieldListToList_cons (f : Fld) (rest : FieldList) :
    (FieldList.cons f rest).toList = f :: rest.toList := rfl

@[simp]
theorem valueListToList_nil : ValueList.nil.toList = [] := rfl

@[simp]
theorem valueListToList_cons (v : Value) (rest : ValueList) :
    (ValueList.cons v rest).toList = v :: rest.toList := rfl

/-- `reflect.Value.Convert` to a signed width is the identity on values in
the width's range. -/
theorem signedWrap_id (w : Nat) {n : Int}
    (h1 : -(2 ^ (w - 1)) ≤ n) (h2 : n < 2 ^ (w - 1)) (hw : 0 < w) :
    signedWrap w n = n := by
  unfold signedWrap
  have hsplit : (2 : Int) ^ w = 2 ^ (w - 1) * 2 := by
    rw [← pow_succ]
    congr 1
    omega
  rw [hsplit]
  have hpos : (0 : Int) < 2 ^ (w - 1) := by positivity
  have hmod : (n + 2 ^ (w - 1)) % (2 ^ (w - 1) * 2) = n + 2 ^ (w - 1) :=
    Int.emod_eq_of_lt (by omega) (by omega)
  omega

/-- `strconv.ParseInt(s, 10, 64)` inverts the decimal rendering on the
64-bit range. -/
theorem parseInt_fmtInt (i : Int) (hlo : -(2 ^ 63) ≤ i) (hhi : i < 2 ^ 63) :
    parseIntChars (fmtInt i) = some i := by
  unfold fmtInt
  split
  · next hneg =>
    show parseIntChars ('-' :: fmtNat i.natAbs) = some i
    have hstep : parseIntChars ('-' :: fmtNat i.natAbs)
        = (parseNatD (fmtNat i.natAbs)).bind
            fun v => if v ≤ 2 ^ 63 then some (-(v : Int)) else none := by
      simp [parseIntChars]
    rw [hstep, parseNatD_fmtNat]
    show (if i.natAbs ≤ 2 ^ 63 then some (-(i.natAbs : Int)) else none) = some i
    rw [if_pos (by omega)]
    congr 1
    omega
  · next hpos =>
    obtain ⟨c, cs', heq, hc⟩ := exists_digit_head i.natAbs []
    rw [List.append_nil] at heq
    obtain ⟨h1, h2, _⟩ := isDigitC_ne hc
    rw [heq]
    show parseIntChars (c :: cs') = some i
    have hstep : parseIntChars (c :: cs')
        = (parseNatD (c :: cs')).bind fun v => if v < 2 ^ 63 then some ((v : Int)) else none := by
      simp [parseIntChars, h1, h2]
    rw [hstep, ← heq, parseNatD_fmtNat]
    show (if i.natAbs < 2 ^ 63 then some ((i.natAbs : Int)) else none) = some i
    rw [if_pos (by omega)]
    congr 1
    omega

/-! ### Claim theorems -/

/-- C3 (code bug): `convertToType` at integer targets.  The claim says
every integer width, signed or unsigned, accepts any integer input
(truncated to the width), any float (truncated toward zero), and strings
via strict base-10 parsing.  In the code the conversion switch has no
unsigned-target case at all, so a float or integer value aimed at a
`uint` width falls through to the generic conversion error; and the
signed-target case arm, although it lists the unsigned kinds as accepted
inputs, calls `reflect.Value.Int` on them, which panics.  The behaviour
for signed targets on signed/float/string inputs is as claimed
(`3.7` truncates to `3`). -/
theorem C3_integer_target_eval :
    convertToType (.float .f64 ⟨5, 1, by decide, by decide⟩) (.uint .u32)
        = .err "cannot convert 5 (type float64) to uint32"
    ∧ convertToType (.int .i 5) (.uint .u8)
        = .err "cannot convert 5 (type int) to uint8"
    ∧ convertToType (.uint .u64 7) (.int .i)
        = .crash "reflect: call of reflect.Value.Int on uint Value"
    ∧ convertToType (.float .f64 ⟨37, 10, by decide, by decide⟩) (.int .i)
        = .ok (.int .i 3)
    ∧ convertToType (.float .f64 ⟨-37, 10, by decide, by decide⟩) (.int .i)
        = .ok (.int .i (-3))
    ∧ convertToType (.str "42") (.int .i16) = .ok (.int .i16 42) :=
  ⟨rfl, rfl, rfl, rfl, rfl, rfl⟩

/-- C4 (code bug): `convertToType` at a boolean target.  The claim
says any numeric input of any integer or floating width yields
`value ≠ 0`.  The numeric case arm of the code lists all those input
kinds but converts them with `reflect.Value.Int`, which panics on a float
or unsigned kind; only signed integer inputs behave as claimed.  Native
booleans pass through, and the strict literal parse accepts
`"true"`/`"false"` and rejects `"maybe"` with a conversion error, as
claimed. -/
theorem C4_bool_target_eval :
    convertToType (.float .f64 ⟨1, 1, by decide, by decide⟩) .bool
        = .crash "reflect: call of reflect.Value.Int on float Value"
    ∧ convertToType (.uint .u8 1) .bool
        = .crash "reflect: call of reflect.Value.Int on uint Value"
    ∧ convertToType (.bool true) .bool = .ok (.bool true)
    ∧ convertToType (.str "true") .bool = .ok (.bool true)
    ∧ convertToType (.str "false") .bool = .ok (.bool false)
    ∧ convertToType (.str "maybe") .bool = .err "cannot convert maybe to bool"
    ∧ convertToType (.int .i 5) .bool = .ok (.bool true)
    ∧ convertToType (.int .i 0) .bool = .ok (.bool false)
    ∧ convertToType (.list .any .nil) .bool = .err "cannot convert [] to bool" :=
  ⟨rfl, rfl, rfl, rfl, rfl, rfl, rfl, rfl, rfl⟩

/-- C5 (code bug): the `ServerTool` handler converts returned errors
into error payloads and successes into JSON text with a nil handler
error, but a coercion panic (here: a JSON number `1` bound to a `bool`
parameter, hitting the `reflect.Value.Int`-on-float panic of
`convertToType`) escapes the handler, which has no recover — a
transport-level failure the claim says can never happen. -/
theorem C5_handler_eval :
    serverToolHandler ⟨[.bool], fun args => .r1 (args.headD .null)⟩
        (some [("value", .float .f64 ⟨1, 1, by decide, by decide⟩)])
      = .crashed "reflect: call of reflect.Value.Int on float Value"
    ∧ serverToolHandler ⟨[.int .i], fun args => .r2 (args.headD .null) (some "boom")⟩
        (some [("value", .str "5")])
      = .errorPayload "boom"
    ∧ serverToolHandler ⟨[.int .i], fun args => .r1 (args.headD .null)⟩
        (some [("value", .str "5")])
      = .text "5"
    ∧ serverToolHandler ⟨[.int .i], fun args => .r1 (args.headD .null)⟩
        (some [("value", .str "oops")])
      = .errorPayload "failed to convert parameter value: cannot convert oops to int" :=
  ⟨rfl, rfl, rfl, rfl⟩

/-- C6 (confirmed): once binding succeeds, `Execute` interprets the
wrapped function's results exactly as claimed: zero results give
`(nil, nil)`; one result is returned with a nil error; two results give
the first value and the second as the error, a nil error meaning success
and a non-nil error being passed through together with the value. -/
theorem C6_return_interpretation (fn : GoFn) (params : Params) (args : List Value)
    (hbind : bindArgs true fn.params params = .ok args) :
    (fn.body args = .r0 → Execute fn params = .ret .null none)
    ∧ (∀ v, fn.body args = .r1 v → Execute fn params = .ret v none)
    ∧ (∀ v, fn.body args = .r2 v none → Execute fn params = .ret v none)
    ∧ (∀ v e, fn.body args = .r2 v (some e) → Execute fn params = .ret v (some e)) := by
  unfold Execute
  rw [hbind]
  refine ⟨fun h => ?_, fun v h => ?_, fun v h => ?_, fun v e h => ?_⟩ <;>
  · show interpretRet (fn.body args) = _
    rw [h]
    rfl

theorem C6_witness :
    (bindArgs true ([] : List GoType) ([] : Params) = .ok [])
    ∧ Execute ⟨[], fun _ => .r2 (.str "v") (some "boom")⟩ [] = .ret (.str "v") (some "boom")
    ∧ Execute ⟨[], fun _ => .r2 (.str "v") none⟩ [] = .ret (.str "v") none
    ∧ Execute ⟨[], fun _ => .r1 (.int .i 3)⟩ [] = .ret (.int .i 3) none
    ∧ Execute ⟨[], fun _ => .r0⟩ [] = .ret .null none := by
  refine ⟨rfl, ?_, ?_, ?_, ?_⟩
  · exact (C6_return_interpretation ⟨[], fun _ => .r2 (.str "v") (some "boom")⟩
      [] [] rfl).2.2.2 _ _ rfl
  · exact (C6_return_interpretation ⟨[], fun _ => .r2 (.str "v") none⟩ [] [] rfl).2.2.1 _ rfl
  · exact (C6_return_interpretation ⟨[], fun _ => .r1 (.int .i 3)⟩ [] [] rfl).2.1 _ rfl
  · exact (C6_return_interpretation ⟨[], fun _ => .r0⟩ [] [] rfl).1 rfl

theorem Execute_of_failed (fn : GoFn) (params : Params) (m : String)
    (h : bindArgs true fn.params params = .failed m) :
    Execute fn params = .ret .null (some m) := by
  unfold Execute
  rw [h]

theorem bindField_err_shape (f : Fld) (params : Params) (m : String)
    (h : bindField f params = .err m) :
    ∃ name e, m = "failed to convert parameter " ++ name ++ ": " ++ e := by
  unfold bindField at h
  rcases hlk : lookupP params (wireName f) with _ | pv <;> rw [hlk] at h
  · exact absurd h (by simp)
  · rcases hexp : f.exported with _ | _ <;> simp only [hexp] at h
    · exact absurd h (by simp)
    · simp only [if_true] at h
      rcases hcv : convertToType pv f.ty with w | e | c <;> rw [hcv] at h
      · exact absurd h (by simp)
      · refine ⟨wireName f, e, ?_⟩
        injection h with h2
        exact h2.symm
      · exact absurd h (by simp)

theorem bindStruct_err_shape (fl : FieldList) (params : Params) (m : String)
    (h : bindStruct fl params = .errL m) :
    ∃ name e, m = "failed to convert parameter " ++ name ++ ": " ++ e := by
  induction fl with
  | nil => exact absurd h (by simp [bindStruct])
  | cons f rest ih =>
    unfold bindStruct at h
    rcases hbf : bindField f params with w | m' | c <;> rw [hbf] at h
    · rcases hbs : bindStruct rest params with vs | m' | c <;> rw [hbs] at h
      · exact absurd h (by simp)
      · injection h with h2
        subst h2
        exact ih hbs
      · exact absurd h (by simp)
    · injection h with h2
      subst h2
      exact bindField_err_shape f params _ hbf
    · exact absurd h (by simp)

theorem bindPrim_err_shape (t : GoType) (params : Params) (m : String)
    (h : bindPrim t params = .err m) :
    ∃ name e, m = "failed to convert parameter " ++ name ++ ": " ++ e := by
  unfold bindPrim at h
  rcases params with _ | ⟨⟨k, v⟩, rest⟩
  · exact absurd h (by simp)
  · dsimp only at h
    by_cases hk : k = ""
    · rw [if_pos hk] at h
      exact absurd h (by simp)
    · rw [if_neg hk] at h
      rcases hcv : convertToType v t with w | e | c <;> rw [hcv] at h
      · exact absurd h (by simp)
      · injection h with h2
        exact ⟨k, e, h2.symm⟩
      · exact absurd h (by simp)

theorem bindOneArg_err_shape (isFirst : Bool) (t : GoType) (params : Params) (m : String)
    (h : bindOneArg isFirst t params = .err m) :
    ∃ name e, m = "failed to convert parameter " ++ name ++ ": " ++ e := by
  unfold bindOneArg at h
  by_cases hraw : isFirst = true ∧ isRawMapTy t = true
  · rw [if_pos hraw] at h
    exact absurd h (by simp)
  · rw [if_neg hraw] at h
    rcases t with _ | _ | _ | _ | _ | e | e | e | fl | e | _ | _ | _ <;> dsimp only at h
    all_goals try exact bindPrim_err_shape _ params _ h
    rcases hbs : bindStruct fl params with vs | m' | c <;> rw [hbs] at h
    · exact absurd h (by simp)
    · injection h with h2
      subst h2
      exact bindStruct_err_shape fl params _ hbs
    · exact absurd h (by simp)

theorem bindArgs_err_shape (ts : List GoType) (params : Params) (m : String) :
    ∀ isFirst, bindArgs isFirst ts params = .failed m →
      ∃ name e, m = "failed to convert parameter " ++ name ++ ": " ++ e := by
  induction ts with
  | nil => intro isFirst h; exact absurd h (by simp [bindArgs])
  | cons t rest ih =>
    intro isFirst h
    unfold bindArgs at h
    rcases hb : bindOneArg isFirst t params with v | m' | c <;> rw [hb] at h
    · rcases hr : bindArgs false rest params with vs | m' | c <;> rw [hr] at h
      · exact absurd h (by simp)
      · injection h with h2
        subst h2
        exact ih false hr
      · exact absurd h (by simp)
    · injection h with h2
      subst h2
      exact bindOneArg_err_shape isFirst t params _ hb
    · exact absurd h (by simp)

/-- C8 (confirmed): binding is atomic with respect to invocation.
When the binding loop fails, `Execute` returns a nil result together with
the binding error — which is always field-qualified
(`failed to convert parameter <name>: ...`) — and its outcome is
independent of the wrapped function's behaviour: the function was never
invoked. -/
theorem C8_bind_atomic (ps : List GoType) (params : Params) (m : String)
    (h : bindArgs true ps params = .failed m) (body₁ body₂ : List Value → FnRet) :
    Execute ⟨ps, body₁⟩ params = .ret .null (some m)
    ∧ Execute ⟨ps, body₁⟩ params = Execute ⟨ps, body₂⟩ params
    ∧ ∃ name e, m = "failed to convert parameter " ++ name ++ ": " ++ e := by
  refine ⟨Execute_of_failed ⟨ps, body₁⟩ params m h, ?_, bindArgs_err_shape ps params m true h⟩
  exact (Execute_of_failed ⟨ps, body₁⟩ params m h).trans
    (Execute_of_failed ⟨ps, body₂⟩ params m h).symm

theorem C8_witness :
    bindArgs true [GoType.int .i] [("x", Value.str "abc")]
        = .failed "failed to convert parameter x: cannot convert abc to int"
    ∧ Execute ⟨[GoType.int .i], fun _ => .r1 (.str "ran")⟩ [("x", Value.str "abc")]
        = .ret .null (some "failed to convert parameter x: cannot convert abc to int")
    ∧ Execute ⟨[GoType.int .i], fun _ => .r1 (.str "ran")⟩ [("x", Value.str "abc")]
        = Execute ⟨[GoType.int .i], fun _ => .r0⟩ [("x", Value.str "abc")] := by
  refine ⟨rfl, ?_, ?_⟩
  · exact (C8_bind_atomic [GoType.int .i] [("x", Value.str "abc")] _ rfl
      (fun _ => .r1 (.str "ran")) (fun _ => .r0)).1
  · exact (C8_bind_atomic [GoType.int .i] [("x", Value.str "abc")] _ rfl
      (fun _ => .r1 (.str "ran")) (fun _ => .r0)).2.1

/-- C1 (confirmed): in the struct-parameter binding, whenever every
present (and settable) field value coerces successfully, the bind
succeeds — absence of a declared field never raises an error, required or
not — and every field whose wire name is absent from the input map is
bound to its type's zero value, while each present field is bound to its
coerced value. -/
theorem C1_struct_bind_absent_zero (fl : FieldList) (params : Params)
    (H : ∀ f ∈ fl.toList, f.exported = true →
      ∀ pv, lookupP params (wireName f) = some pv → ∃ w, convertToType pv f.ty = .ok w) :
    ∃ vs : ValueList, bindStruct fl params = .okL vs
      ∧ vs.toList.length = fl.toList.length
      ∧ ∀ (i : Nat) (f : Fld), fl.toList[i]? = some f →
        ((lookupP params (wireName f) = none → vs.toList[i]? = some (zeroValue f.ty))
         ∧ (∀ pv w, lookupP params (wireName f) = some pv → f.exported = true →
              convertToType pv f.ty = .ok w → vs.toList[i]? = some w)) := by
  induction fl with
  | nil =>
    refine ⟨.nil, rfl, rfl, fun i f hf => ?_⟩
    simp at hf
  | cons f rest ih =>
    obtain ⟨vs, hvs, hlen, hidx⟩ := ih (fun g hg hge pv hpv => H g (by simp [hg]) hge pv hpv)
    have hhead : ∃ w, bindField f params = .ok w
        ∧ (lookupP params (wireName f) = none → w = zeroValue f.ty)
        ∧ (∀ pv w', lookupP params (wireName f) = some pv → f.exported = true →
            convertToType pv f.ty = .ok w' → w = w') := by
      rcases hlk : lookupP params (wireName f) with _ | pv
      · refine ⟨zeroValue f.ty, ?_, fun _ => rfl, fun pv w' hpv _ _ => ?_⟩
        · unfold bindField
          rw [hlk]
        · exact Option.noConfusion hpv
      · rcases hexp : f.exported with _ | _
        · refine ⟨zeroValue f.ty, ?_, fun _ => rfl, fun pv' w' hpv' hexp' _ => ?_⟩
          · unfold bindField
            rw [hlk]
            simp [hexp]
          · exact absurd hexp' (by simp [hexp])
        · obtain ⟨w, hw⟩ := H f (by simp) hexp pv hlk
          refine ⟨w, ?_, fun habs => ?_, fun pv' w' hpv' _ hw' => ?_⟩
          · unfold bindField
            rw [hlk]
            simp [hexp, hw]
          · exact Option.noConfusion habs
          · injection hpv' with hpv2
            subst hpv2
            rw [hw] at hw'
            cases hw'
            rfl
    obtain ⟨w, hbf, hzero, hconv⟩ := hhead
    refine ⟨.cons w vs, ?_, ?_, ?_⟩
    · unfold bindStruct
      rw [hbf, hvs]
    · simp [hlen]
    · intro i g hg
      match i with
      | 0 =>
        simp only [fieldListToList_cons, List.getElem?_cons_zero] at hg
        injection hg with hg2
        subst hg2
        constructor
        · intro habs
          simp only [valueListToList_cons, List.getElem?_cons_zero, hzero habs]
        · intro pv w' hpv hexp hw'
          simp only [valueListToList_cons, List.getElem?_cons_zero, hconv pv w' hpv hexp hw']
      | i + 1 =>
        simp only [fieldListToList_cons, List.getElem?_cons_succ] at hg
        have h2 := hidx i g hg
        simpa only [valueListToList_cons, List.getElem?_cons_succ] using h2

theorem C1_witness :
    (∃ vs : ValueList,
      bindStruct (FieldList.cons (.mk "Id" "id" "" "" true (.int .i))
          (.cons (.mk "Note" "note,omitempty" "" "" true .str) .nil))
        [("id", Value.str "42")] = .okL vs
      ∧ vs.toList.length = (FieldList.cons (.mk "Id" "id" "" "" true (.int .i))
          (.cons (.mk "Note" "note,omitempty" "" "" true .str) .nil)).toList.length
      ∧ ∀ (i : Nat) (f : Fld), (FieldList.cons (.mk "Id" "id" "" "" true (.int .i))
          (.cons (.mk "Note" "note,omitempty" "" "" true .str) .nil)).toList[i]? = some f →
        ((lookupP [("id", Value.str "42")] (wireName f) = none →
            vs.toList[i]? = some (zeroValue f.ty))
         ∧ (∀ pv w, lookupP [("id", Value.str "42")] (wireName f) = some pv →
              f.exported = true → convertToType pv f.ty = .ok w → vs.toList[i]? = some w)))
    ∧ bindStruct (FieldList.cons (.mk "Id" "id" "" "" true (.int .i))
          (.cons (.mk "Note" "note,omitempty" "" "" true .str) .nil))
        [("id", Value.str "42")]
      = .okL (.cons (.int .i 42) (.cons (.str "") .nil)) := by
  constructor
  · apply C1_struct_bind_absent_zero
    intro f hf hexp pv hpv
    simp only [fieldListToList_cons, fieldListToList_nil, List.mem_cons,
      List.not_mem_nil, or_false] at hf
    rcases hf with rfl | rfl
    · have hl : lookupP [("id", Value.str "42")]
          (wireName (.mk "Id" "id" "" "" true (.int .i))) = some (.str "42") := rfl
      rw [hl] at hpv
      injection hpv with h2
      subst h2
      exact ⟨.int .i 42, rfl⟩
    · have hl : lookupP [("id", Value.str "42")]
          (wireName (.mk "Note" "note,omitempty" "" "" true .str)) = none := rfl
      rw [hl] at hpv
      exact Option.noConfusion hpv
  · rfl

/-- The struct binding consults the input map only through the declared
wire names: maps agreeing on every declared wire name bind identically. -/
theorem bindStruct_ext (fl : FieldList) (p1 p2 : Params)
    (h : ∀ f ∈ fl.toList, lookupP p1 (wireName f) = lookupP p2 (wireName f)) :
    bindStruct fl p1 = bindStruct fl p2 := by
  induction fl with
  | nil => rfl
  | cons f rest ih =>
    unfold bindStruct
    have hbf : bindField f p1 = bindField f p2 := by
      unfold bindField
      rw [h f (by simp)]
    rw [hbf, ih (fun g hg => h g (by simp [hg]))]

/-- A conversion error out of the struct binding always comes from an
entry of the input map whose key is a declared field's wire name (of an
exported field), whose value failed to coerce. -/
theorem bindStruct_err_source (fl : FieldList) (p : Params) (m : String)
    (h : bindStruct fl p = .errL m) :
    ∃ f ∈ fl.toList, ∃ pv, lookupP p (wireName f) = some pv ∧ f.exported = true
      ∧ ∃ e, convertToType pv f.ty = .err e := by
  induction fl with
  | nil => exact absurd h (by simp [bindStruct])
  | cons f rest ih =>
    unfold bindStruct at h
    rcases hbf : bindField f p with w | m' | c <;> rw [hbf] at h
    · rcases hbs : bindStruct rest p with vs | m' | c <;> rw [hbs] at h
      · exact absurd h (by simp)
      · injection h with h2
        subst h2
        obtain ⟨g, hg, rest2⟩ := ih hbs
        exact ⟨g, by simp [hg], rest2⟩
      · exact absurd h (by simp)
    · unfold bindField at hbf
      rcases hlk : lookupP p (wireName f) with _ | pv <;> rw [hlk] at hbf
      · exact absurd hbf (by simp)
      · rcases hexp : f.exported with _ | _ <;> simp only [hexp] at hbf
        · exact absurd hbf (by simp)
        · simp only [if_true] at hbf
          rcases hcv : convertToType pv f.ty with w | e | c <;> rw [hcv] at hbf
          · exact absurd hbf (by simp)
          · exact ⟨f, by simp, pv, hlk, hexp, e, hcv⟩
          · exact absurd hbf (by simp)
    · exact absurd h (by simp)

/-- C10 (confirmed): for a struct shape, input keys matching no
declared wire name are ignored — the bind outcome depends only on the
lookups of the declared wire names — and a conversion error can only
arise from an input entry whose key is a declared (exported) field's wire
name. -/
theorem C10_unknown_keys (fl : FieldList) (p1 p2 p : Params) (m : String) :
    ((∀ f ∈ fl.toList, lookupP p1 (wireName f) = lookupP p2 (wireName f)) →
      bindStruct fl p1 = bindStruct fl p2)
    ∧ (bindStruct fl p = .errL m →
      ∃ f ∈ fl.toList, ∃ pv, lookupP p (wireName f) = some pv ∧ f.exported = true
        ∧ ∃ e, convertToType pv f.ty = .err e) :=
  ⟨bindStruct_ext fl p1 p2, bindStruct_err_source fl p m⟩

theorem C10_witness :
    bindStruct (FieldList.cons (.mk "Id" "id" "" "" true (.int .i)) .nil)
        [("id", Value.str "42")]
      = bindStruct (FieldList.cons (.mk "Id" "id" "" "" true (.int .i)) .nil)
        [("junk", Value.bool true), ("id", Value.str "42"), ("noise", Value.null)]
    ∧ (∃ f ∈ (FieldList.cons (.mk "Id" "id" "" "" true (.int .i)) .nil).toList,
        ∃ pv, lookupP [("id", Value.str "oops")] (wireName f) = some pv
          ∧ f.exported = true ∧ ∃ e, convertToType pv f.ty = .err e) := by
  constructor
  · apply (C10_unknown_keys (FieldList.cons (.mk "Id" "id" "" "" true (.int .i)) .nil)
      [("id", Value.str "42")]
      [("junk", Value.bool true), ("id", Value.str "42"), ("noise", Value.null)] [] "").1
    intro f hf
    simp only [fieldListToList_cons, fieldListToList_nil, List.mem_cons,
      List.not_mem_nil, or_false] at hf
    subst hf
    rfl
  · exact (C10_unknown_keys (FieldList.cons (.mk "Id" "id" "" "" true (.int .i)) .nil)
      [] [] [("id", Value.str "oops")]
      "failed to convert parameter id: cannot convert oops to int").2 rfl

/-- C2 counterexample: a tool with a single `int` parameter (the
shape whose schema advertises the synthetic `value` key), called with an
input map whose only key is `other`.  The claim predicts the `value` key
is looked up, found absent, and the parameter zero-filled, so the
identity function would return `0`; the code instead coerces the value of
the first key of the map and returns `7`. -/
theorem C2_counterexample :
    Execute ⟨[.int .i], fun args => .r1 (args.headD .null)⟩ [("other", Value.str "7")]
      = .ret (.int .i 7) none
    ∧ ExecOut.ret (.int .i 7) none ≠ .ret (.int .i 0) none :=
  ⟨rfl, by decide⟩

/-- C2 amended: for a single non-context parameter of primitive or
collection type, the schema synthesizer does advertise exactly the
required synthetic property `value`, but the binder does not look that
key up: it binds the value of the *first* key of the input map in Go's
(randomized) map iteration order, whatever its name — so a
schema-compliant call whose only key is `value` is coerced as claimed —
zero-fills the parameter when the map is empty (or when that first key is
the empty string), and consults no key beyond that first one. -/
theorem C2_first_key_binding (t : GoType) (v : Value) (k : String) (rest : Params)
    (hns : ∀ fl, t ≠ .struct fl) (hnm : isRawMapTy t = false) (hc : t ≠ .ctx) :
    bindOneArg true t [] = .ok (zeroValue t)
    ∧ (k ≠ "" → bindOneArg true t ((k, v) :: rest)
        = (match convertToType v t with
           | .ok w => .ok w
           | .err m => .err ("failed to convert parameter " ++ k ++ ": " ++ m)
           | .crash m => .crash m))
    ∧ bindOneArg true t (("value", v) :: rest)
        = (match convertToType v t with
           | .ok w => .ok w
           | .err m => .err ("failed to convert parameter value: " ++ m)
           | .crash m => .crash m)
    ∧ generateSchemaFromFunction [t]
        = ⟨"object", [("value", getTypeSchema t)], ["value"]⟩ := by
  have hprim : ∀ ps, bindOneArg true t ps = bindPrim t ps := by
    intro ps
    unfold bindOneArg
    rw [if_neg (by simp [hnm])]
    rcases t with _ | _ | _ | _ | _ | e | e | e | fl | e | _ | _ | _
    case struct => exact absurd rfl (hns fl)
    all_goals rfl
  have hdc : dropCtx [t] = [t] := by
    rcases t with _ | _ | _ | _ | _ | e | e | e | fl | e | _ | _ | _
    case ctx => exact absurd rfl hc
    all_goals rfl
  refine ⟨hprim [], fun hk => ?_, ?_, ?_⟩
  · rw [hprim]
    unfold bindPrim
    dsimp only
    rw [if_neg hk]
  · rw [hprim]
    unfold bindPrim
    dsimp only
    rw [if_neg (by decide : ¬("value" = ""))]
    rcases convertToType v t with w | m | m <;> rfl
  · unfold generateSchemaFromFunction
    rw [hdc]
    show (if isRawMapTy t = true then _ else _) = _
    rw [if_neg (by simp [hnm])]
    rcases t with _ | _ | _ | _ | _ | e | e | e | fl | e | _ | _ | _
    case struct => exact absurd rfl (hns fl)
    all_goals rfl

theorem C2_witness :
    bindOneArg true (.int .i) ([] : Params) = .ok (zeroValue (.int .i))
    ∧ bindOneArg true (.int .i) [("other", Value.str "7")]
        = (match convertToType (Value.str "7") (.int .i) with
           | .ok w => .ok w
           | .err m => .err ("failed to convert parameter " ++ "other" ++ ": " ++ m)
           | .crash m => .crash m)
    ∧ bindOneArg true (.int .i) [("value", Value.str "7")]
        = (match convertToType (Value.str "7") (.int .i) with
           | .ok w => .ok w
           | .err m => .err ("failed to convert parameter value: " ++ m)
           | .crash m => .crash m)
    ∧ generateSchemaFromFunction [GoType.int .i]
        = ⟨"object", [("value", getTypeSchema (.int .i))], ["value"]⟩ := by
  have h := C2_first_key_binding (.int .i) (Value.str "7") "other" []
    (fun fl => by simp) rfl (by simp)
  exact ⟨h.1, h.2.1 (by decide), h.2.2.1, h.2.2.2⟩

/-- C7 counterexample: an unexported field with no serialization tag.
The claim says a field with no tag uses its declared name as wire name
and is present in `required`; the schema synthesizer skips unexported
fields entirely (line 328), so `secret` appears in neither `required`
nor `properties`. -/
theorem C7_counterexample :
    (generateSchemaFromFunction
        [.struct (.cons (.mk "secret" "" "" "" false .str) .nil)]).Required = []
    ∧ "secret" ∉ (generateSchemaFromFunction
        [.struct (.cons (.mk "secret" "" "" "" false .str) .nil)]).Required :=
  ⟨rfl, by decide⟩

theorem rootFields_cons (f : Fld) (rest : FieldList) :
    rootFields (.cons f rest)
      = (if schemaKeeps f
         then ((wireName f, addDesc (getTypeSchema f.ty) f.tagMcp) :: (rootFields rest).1,
               if schemaRequires f then wireName f :: (rootFields rest).2
               else (rootFields rest).2)
         else rootFields rest) := by
  rcases f with ⟨n, tj, td, tm, ex, ty⟩
  rcases ex with _ | _
  · simp [rootFields, schemaKeeps, Fld.exported]
  · by_cases htj : tj = ""
    · subst htj
      simp [rootFields, schemaKeeps, schemaRequires, wireName, Fld.exported, Fld.tagJson,
        Fld.name, Fld.tagMcp, Fld.ty]
    · by_cases hw : tagWire tj = "-"
      · simp [rootFields, schemaKeeps, schemaRequires, htj, hw, Fld.exported, Fld.tagJson]
      · by_cases ho : tagOmitempty tj = true
        · simp [rootFields, schemaKeeps, schemaRequires, wireName, htj, hw, ho,
            Fld.exported, Fld.tagJson, Fld.tagMcp, Fld.ty, Fld.name]
        · simp [rootFields, schemaKeeps, schemaRequires, wireName, htj, hw, ho,
            Fld.exported, Fld.tagJson, Fld.tagMcp, Fld.ty, Fld.name]

theorem rootFields_req (fl : FieldList) :
    (rootFields fl).2 = (fl.toList.filter schemaRequires).map wireName := by
  induction fl with
  | nil => rfl
  | cons f rest ih =>
    rw [rootFields_cons]
    by_cases hk : schemaKeeps f = true
    · by_cases hr : schemaRequires f = true
      · simp [hk, hr, List.filter_cons, ih]
      · simp [hk, hr, List.filter_cons, ih]
    · have hr : schemaRequires f = false := by
        unfold schemaRequires
        simp only [Bool.not_eq_true] at hk
        simp [hk]
      simp [hk, hr, List.filter_cons, ih]

theorem rootFields_props_keys (fl : FieldList) :
    (rootFields fl).1.map Prod.fst = (fl.toList.filter schemaKeeps).map wireName := by
  induction fl with
  | nil => rfl
  | cons f rest ih =>
    rw [rootFields_cons]
    by_cases hk : schemaKeeps f = true
    · simp [hk, List.filter_cons, ih]
    · simp [hk, List.filter_cons, ih]

/-- C7 amended: quantified over *exported* fields (the synthesizer
skips unexported fields entirely, a case the claim's universal wording
misses).  A kept field contributes its wire name — tag name part if
tagged, declared name if not — to `properties`; it contributes to
`required` iff it is untagged or its tag lacks `omitempty`; a tag wire
name `-` removes the field from the schema; and every name in `required`
is also a key of `properties`. -/
theorem C7_schema_field_rules (fl : FieldList) :
    (generateSchemaFromFunction [.struct fl]).Required
        = (fl.toList.filter schemaRequires).map wireName
    ∧ (generateSchemaFromFunction [.struct fl]).Properties.map Prod.fst
        = (fl.toList.filter schemaKeeps).map wireName
    ∧ ∀ x ∈ (generateSchemaFromFunction [.struct fl]).Required,
        x ∈ (generateSchemaFromFunction [.struct fl]).Properties.map Prod.fst := by
  have hreq : (generateSchemaFromFunction [.struct fl]).Required = (rootFields fl).2 := rfl
  have hprops : (generateSchemaFromFunction [.struct fl]).Properties = (rootFields fl).1 := rfl
  refine ⟨hreq.trans (rootFields_req fl), hprops ▸ rootFields_props_keys fl, ?_⟩
  intro x hx
  rw [hreq, rootFields_req fl] at hx
  rw [hprops, rootFields_props_keys fl]
  simp only [List.mem_map, List.mem_filter] at hx ⊢
  obtain ⟨f, ⟨hmem, hfreq⟩, rfl⟩ := hx
  refine ⟨f, ⟨hmem, ?_⟩, rfl⟩
  unfold schemaRequires at hfreq
  simp only [Bool.and_eq_true] at hfreq
  exact hfreq.1

theorem C7_witness :
    (generateSchemaFromFunction [.struct
        (.cons (.mk "Id" "id" "" "" true (.int .i))
          (.cons (.mk "Note" "note,omitempty" "" "" true .str)
            (.cons (.mk "Gone" "-" "" "" true .bool)
              (.cons (.mk "Plain" "" "" "" true .str) .nil))))]).Required
      = ["id", "Plain"]
    ∧ (generateSchemaFromFunction [.struct
        (.cons (.mk "Id" "id" "" "" true (.int .i))
          (.cons (.mk "Note" "note,omitempty" "" "" true .str)
            (.cons (.mk "Gone" "-" "" "" true .bool)
              (.cons (.mk "Plain" "" "" "" true .str) .nil))))]).Properties.map Prod.fst
      = ["id", "note", "Plain"]
    ∧ "id" ∈ (generateSchemaFromFunction [.struct
        (.cons (.mk "Id" "id" "" "" true (.int .i))
          (.cons (.mk "Note" "note,omitempty" "" "" true .str)
            (.cons (.mk "Gone" "-" "" "" true .bool)
              (.cons (.mk "Plain" "" "" "" true .str) .nil))))]).Properties.map Prod.fst := by
  refine ⟨?_, ?_, ?_⟩
  · rw [(C7_schema_field_rules _).1]
    rfl
  · rw [(C7_schema_field_rules _).2.1]
    rfl
  · exact (C7_schema_field_rules _).2.2 "id" (by rw [(C7_schema_field_rules _).1]; decide)

/-- C9 counterexample: the round-trip fails for unsigned integers.
Rendering `uint8(5)` gives the text `5`, but coercing `"5"` back to a
`uint8` target fails, because the conversion switch has no unsigned
target case (the same gap as in C3); the claim asserted the round-trip
holds for every integer, signed or unsigned (compare the explicitly
two-signedness wording of C3). -/
theorem C9_counterexample :
    renderThenParse (.uint .u8 5) (.uint .u8)
        = .err "cannot convert 5 (type string) to uint8"
    ∧ renderThenParse (.uint .u8 5) (.uint .u8) ≠ .ok (.uint .u8 5) :=
  ⟨rfl, by decide⟩

/-- C9 amended: rendering a value to its default text through the
string-target coercion and coercing the text back to the value's own
type round-trips for booleans, *signed* integers within their width's
range, floats (modelled as exact rationals whose denominator divides a
power of ten, which covers every representable float), and strings —
but not for unsigned integers, whose decode side always fails. -/
theorem C9_roundtrip (b : Bool) (k : IntK) (n : Int) (fk : FloatK) (q : ℚ) (s : String)
    (hn1 : -(2 ^ (k.width - 1)) ≤ n) (hn2 : n < 2 ^ (k.width - 1))
    (hq : ∃ j ≤ q.den, (q.den : ℕ) ∣ 10 ^ j) :
    renderThenParse (.bool b) .bool = .ok (.bool b)
    ∧ renderThenParse (.int k n) (.int k) = .ok (.int k n)
    ∧ renderThenParse (.float fk q) (.float fk) = .ok (.float fk q)
    ∧ renderThenParse (.str s) .str = .ok (.str s) := by
  refine ⟨?_, ?_, ?_, ?_⟩
  · cases b <;> rfl
  · have hw : 0 < k.width := by cases k <;> simp [IntK.width]
    have hlo : -(2 ^ 63) ≤ n := by
      cases k <;> simp only [IntK.width] at hn1 hn2 <;> norm_num at hn1 hn2 ⊢ <;> omega
    have hhi : n < 2 ^ 63 := by
      cases k <;> simp only [IntK.width] at hn1 hn2 <;> norm_num at hn1 hn2 ⊢ <;> omega
    have hparse : parseIntChars (fmtInt n) = some n := parseInt_fmtInt n hlo hhi
    have hrender : convertToType (.int k n) .str
        = .ok (.str (String.mk (fmtInt n))) := rfl
    show renderThenParse (.int k n) (.int k) = _
    unfold renderThenParse
    rw [hrender]
    dsimp only
    have hdecode : convertToType (.str (String.mk (fmtInt n))) (.int k)
        = (match goParseInt (String.mk (fmtInt n)) with
           | some m => CRes.ok (.int k (signedWrap k.width m))
           | none => .err ("cannot convert " ++ sprintfV (.str (String.mk (fmtInt n)))
               ++ " to int")) := rfl
    rw [hdecode]
    have hgp : goParseInt (String.mk (fmtInt n)) = some n := hparse
    rw [hgp]
    dsimp only
    rw [signedWrap_id k.width hn1 hn2 hw]
  · have hparse : parseFloatChars (fmtFloat q) = some q := parseFloat_fmtFloat q hq
    have hrender : convertToType (.float fk q) .str
        = .ok (.str (String.mk (fmtFloat q))) := rfl
    show renderThenParse (.float fk q) (.float fk) = _
    unfold renderThenParse
    rw [hrender]
    dsimp only
    have hdecode : convertToType (.str (String.mk (fmtFloat q))) (.float fk)
        = (match goParseFloat (String.mk (fmtFloat q)) with
           | some p => CRes.ok (.float fk p)
           | none => .err ("cannot convert " ++ sprintfV (.str (String.mk (fmtFloat q)))
               ++ " to float")) := rfl
    rw [hdecode]
    have hgp : goParseFloat (String.mk (fmtFloat q)) = some q := hparse
    rw [hgp]
  · rfl

theorem C9_witness :
    renderThenParse (.bool true) .bool = .ok (.bool true)
    ∧ renderThenParse (.int .i8 (-5)) (.int .i8) = .ok (.int .i8 (-5))
    ∧ renderThenParse (.float .f64 ⟨37, 10, by decide, by decide⟩) (.float .f64)
        = .ok (.float .f64 ⟨37, 10, by decide, by decide⟩)
    ∧ renderThenParse (.str "hi") .str = .ok (.str "hi") :=
  C9_roundtrip true .i8 (-5) .f64 ⟨37, 10, by decide, by decide⟩ "hi"
    (by decide) (by decide) ⟨1, by decide, by decide⟩

end OasMcp
